import Mathlib

/-!
# SimpleVoting — a shallow embedding of `src/contracts/SimpleVoting/src/lib.rs`

The contract is a binary-choice poll persisted in Soroban instance storage
under five logical keys: `Creator`, `Active`, `VotesSi`, `VotesNo`, and one
presence-only `HasVoted(address)` key per voter. We embed the instance
storage as a record with one optional field per key category; the
`HasVoted` family — only ever written with the value `true`, so presence is
all that matters — becomes the list of addresses whose key exists.

Addresses are opaque identities; we take `Address := Nat`. Host-enforced
`require_auth` is an external capability (the sandbox aborts unauthorized
calls before the contract body runs), so each embedded operation describes
a call whose authorization proof was accepted. The counters are `u32` in
the source; the crate's build profile is not part of the source tree, and
Soroban's standard contract profile compiles with overflow checks on, so an
increment at the type's maximum traps and the host commits nothing — a
committed successful vote always realizes exactly `+ 1`. We therefore model
the counters as `Nat` with exact increment.

Each state-changing operation returns the Rust `Result<(), Error>` together
with the storage it commits; every error path commits the storage unchanged
(mirroring both the code, which never writes before an early return, and
the host's atomic per-call commit).
-/

namespace SimpleVoting

/-- Contract addresses, opaque identities. -/
abbrev Address := Nat

/-- The `Vote` enum of the contract: the two choices. -/
inductive Vote where
  | Si : Vote
  | No : Vote
deriving DecidableEq, Repr

/-- The `Error` enum of the contract, numeric codes 1–5. -/
inductive Error where
  | AlreadyInitialized : Error
  | NotInitialized : Error
  | VotingNotActive : Error
  | AlreadyVoted : Error
  | NotCreator : Error
deriving DecidableEq, Repr

/-- The instance storage of one deployed contract: one optional field per
logical `DataKey` category, with the presence-keyed `HasVoted(address)`
family embedded as the list of addresses whose key exists. -/
structure Storage where
  creator : Option Address
  active : Option Bool
  votesSi : Option Nat
  votesNo : Option Nat
  hasVoted : List Address
deriving DecidableEq, Repr

/-- Fresh instance storage: no key exists before initialization. -/
def emptyStorage : Storage :=
  { creator := none, active := none, votesSi := none, votesNo := none, hasVoted := [] }

/-- Whether the `HasVoted(user)` key exists (the contract's `has_voted`). -/
def has_voted (s : Storage) (user : Address) : Bool :=
  user ∈ s.hasVoted

/-- `init`: refuse a second initialization, otherwise store the creator,
set the poll active and zero both counters. -/
def init (s : Storage) (creator : Address) : Except Error Unit × Storage :=
  if s.creator.isSome then
    (Except.error Error.AlreadyInitialized, s)
  else
    (Except.ok (), { s with creator := some creator, active := some true,
                            votesSi := some 0, votesNo := some 0 })

/-- The shared vote-casting procedure `_vote`: check the poll is active,
check the voter has not voted, record the `HasVoted` flag, then bump the
counter matching the choice (reading it with a default of 0). -/
def vote (s : Storage) (voter : Address) (v : Vote) : Except Error Unit × Storage :=
  match s.active with
  | none => (Except.error Error.NotInitialized, s)
  | some active =>
    if !active then
      (Except.error Error.VotingNotActive, s)
    else if has_voted s voter then
      (Except.error Error.AlreadyVoted, s)
    else
      let s1 := { s with hasVoted := voter :: s.hasVoted }
      match v with
      | Vote.Si => (Except.ok (), { s1 with votesSi := some (s1.votesSi.getD 0 + 1) })
      | Vote.No => (Except.ok (), { s1 with votesNo := some (s1.votesNo.getD 0 + 1) })

/-- `vote_si`: cast a "yes" vote. -/
def vote_si (s : Storage) (voter : Address) : Except Error Unit × Storage :=
  vote s voter Vote.Si

/-- `vote_no`: cast a "no" vote. -/
def vote_no (s : Storage) (voter : Address) : Except Error Unit × Storage :=
  vote s voter Vote.No

/-- `close_voting`: only the stored creator may close; closing writes
`Active := false` whatever its current value. -/
def close_voting (s : Storage) (creator : Address) : Except Error Unit × Storage :=
  match s.creator with
  | none => (Except.error Error.NotInitialized, s)
  | some stored_creator =>
    if stored_creator ≠ creator then
      (Except.error Error.NotCreator, s)
    else
      (Except.ok (), { s with active := some false })

/-- `get_results`: both counters defaulting to 0 and the active flag
defaulting to `false` when the keys are absent. -/
def get_results (s : Storage) : Nat × Nat × Bool :=
  (s.votesSi.getD 0, s.votesNo.getD 0, s.active.getD false)

/-- One authorized invocation of a state-changing entry point. -/
inductive Op where
  | init (creator : Address) : Op
  | vote_si (voter : Address) : Op
  | vote_no (voter : Address) : Op
  | close_voting (creator : Address) : Op
deriving DecidableEq, Repr

/-- Dispatch one call: the result it returns and the storage it commits. -/
def step (s : Storage) : Op → Except Error Unit × Storage
  | Op.init c => init s c
  | Op.vote_si v => vote_si s v
  | Op.vote_no v => vote_no s v
  | Op.close_voting c => close_voting s c

/-- The storage after a sequence of calls (each call commits its storage,
failed calls included — they commit it unchanged). -/
def run (s : Storage) : List Op → Storage
  | [] => s
  | op :: ops => run (step s op).2 ops

/-- The states a deployed instance can be in: reachable from fresh storage
by some sequence of calls. -/
def Reachable (s : Storage) : Prop :=
  ∃ ops : List Op, run emptyStorage ops = s

/-- Whether a call is an invocation of `init` (the only entry point that
can bring a fresh instance out of the uninitialized state). -/
def Op.isInit : Op → Bool
  | Op.init _ => true
  | _ => false

/-!
## Characterization of each entry point, branch by branch
-/

theorem init_of_creator_isSome (s : Storage) (a : Address) (h : s.creator.isSome) :
    init s a = (Except.error Error.AlreadyInitialized, s) := by
  simp [init, h]

theorem init_of_creator_none (s : Storage) (a : Address) (h : s.creator = none) :
    init s a = (Except.ok (), { s with
                 creator := some a, active := some true,
                 votesSi := some 0, votesNo := some 0 }) := by
  simp [init, h]

theorem vote_of_active_none (s : Storage) (v : Address) (c : Vote) (h : s.active = none) :
    vote s v c = (Except.error Error.NotInitialized, s) := by
  unfold vote
  rw [h]

theorem vote_of_active_false (s : Storage) (v : Address) (c : Vote)
    (h : s.active = some false) : vote s v c = (Except.error Error.VotingNotActive, s) := by
  unfold vote
  rw [h]
  rfl

theorem vote_of_has_voted (s : Storage) (v : Address) (c : Vote)
    (ha : s.active = some true) (hv : has_voted s v = true) :
    vote s v c = (Except.error Error.AlreadyVoted, s) := by
  unfold vote
  rw [ha]
  simp [hv]

theorem vote_si_ok (s : Storage) (v : Address)
    (ha : s.active = some true) (hv : has_voted s v = false) :
    vote s v Vote.Si = (Except.ok (), { s with
                 hasVoted := v :: s.hasVoted,
                 votesSi := some (s.votesSi.getD 0 + 1) }) := by
  unfold vote
  rw [ha]
  simp [hv]

theorem vote_no_ok (s : Storage) (v : Address)
    (ha : s.active = some true) (hv : has_voted s v = false) :
    vote s v Vote.No = (Except.ok (), { s with
                 hasVoted := v :: s.hasVoted,
                 votesNo := some (s.votesNo.getD 0 + 1) }) := by
  unfold vote
  rw [ha]
  simp [hv]

/-- A vote only succeeds when the poll is active and the voter is fresh. -/
theorem vote_ok_inv (s : Storage) (v : Address) (c : Vote)
    (h : (vote s v c).1 = Except.ok ()) :
    s.active = some true ∧ has_voted s v = false := by
  rcases ha : s.active with _ | b
  · rw [vote_of_active_none s v c ha] at h
    exact absurd h (by simp)
  · cases b with
    | false =>
        rw [vote_of_active_false s v c ha] at h
        exact absurd h (by simp)
    | true =>
        cases hv : has_voted s v with
        | false => exact ⟨rfl, rfl⟩
        | true =>
            rw [vote_of_has_voted s v c ha hv] at h
            exact absurd h (by simp)

/-- A failed vote returns the storage untouched (and a successful one never
touches the creator or the active flag). -/
theorem vote_frame (s : Storage) (v : Address) (c : Vote) :
    (vote s v c).2.creator = s.creator ∧ (vote s v c).2.active = s.active := by
  rcases ha : s.active with _ | b
  · rw [vote_of_active_none s v c ha]
    exact ⟨rfl, ha⟩
  · cases b with
    | false =>
        rw [vote_of_active_false s v c ha]
        exact ⟨rfl, ha⟩
    | true =>
        cases hv : has_voted s v with
        | true =>
            rw [vote_of_has_voted s v c ha hv]
            exact ⟨rfl, ha⟩
        | false =>
            cases c with
            | Si => rw [vote_si_ok s v ha hv]; exact ⟨rfl, ha⟩
            | No => rw [vote_no_ok s v ha hv]; exact ⟨rfl, ha⟩

theorem close_of_creator_none (s : Storage) (a : Address) (h : s.creator = none) :
    close_voting s a = (Except.error Error.NotInitialized, s) := by
  unfold close_voting
  rw [h]

theorem close_of_not_creator (s : Storage) (a cr : Address)
    (h : s.creator = some cr) (hne : cr ≠ a) :
    close_voting s a = (Except.error Error.NotCreator, s) := by
  unfold close_voting
  rw [h]
  simp [hne]

theorem close_of_creator (s : Storage) (a : Address) (h : s.creator = some a) :
    close_voting s a = (Except.ok (), { s with active := some false }) := by
  unfold close_voting
  rw [h]
  simp

/-- `close_voting` succeeds exactly for the stored creator. -/
theorem close_ok_inv (s : Storage) (a : Address)
    (h : (close_voting s a).1 = Except.ok ()) : s.creator = some a := by
  rcases hc : s.creator with _ | cr
  · rw [close_of_creator_none s a hc] at h
    exact absurd h (by simp)
  · by_cases hca : cr = a
    · rw [hca]
    · rw [close_of_not_creator s a cr hc hca] at h
      exact absurd h (by simp)

/-!
## Frame lemmas for whole calls and call sequences
-/

theorem init_hasVoted (s : Storage) (a : Address) : (init s a).2.hasVoted = s.hasVoted := by
  rcases hc : s.creator with _ | cr
  · rw [init_of_creator_none s a hc]
  · rw [init_of_creator_isSome s a (by rw [hc]; rfl)]

theorem close_frame (s : Storage) (a : Address) :
    (close_voting s a).2.creator = s.creator ∧
    (close_voting s a).2.votesSi = s.votesSi ∧
    (close_voting s a).2.votesNo = s.votesNo ∧
    (close_voting s a).2.hasVoted = s.hasVoted := by
  rcases hc : s.creator with _ | cr
  · rw [close_of_creator_none s a hc]
    exact ⟨hc, rfl, rfl, rfl⟩
  · by_cases hca : cr = a
    · have hc2 : s.creator = some a := by rw [hc, hca]
      rw [close_of_creator s a hc2]
      exact ⟨hc, rfl, rfl, rfl⟩
    · rw [close_of_not_creator s a cr hc hca]
      exact ⟨hc, rfl, rfl, rfl⟩

/-- Whoever already voted stays recorded across any single vote call. -/
theorem vote_hasVoted_mono (s : Storage) (w v : Address) (c : Vote)
    (h : v ∈ s.hasVoted) : v ∈ (vote s w c).2.hasVoted := by
  rcases ha : s.active with _ | b
  · rw [vote_of_active_none s w c ha]
    exact h
  · cases b with
    | false =>
        rw [vote_of_active_false s w c ha]
        exact h
    | true =>
        cases hv : has_voted s w with
        | true =>
            rw [vote_of_has_voted s w c ha hv]
            exact h
        | false =>
            cases c with
            | Si =>
                rw [vote_si_ok s w ha hv]
                exact List.mem_cons_of_mem _ h
            | No =>
                rw [vote_no_ok s w ha hv]
                exact List.mem_cons_of_mem _ h

/-- The `HasVoted` flag, once present, survives every call. -/
theorem step_hasVoted_mono (s : Storage) (op : Op) (v : Address)
    (h : has_voted s v = true) : has_voted (step s op).2 v = true := by
  have hmem : v ∈ s.hasVoted := by simpa [has_voted] using h
  cases op with
  | init a =>
      show has_voted (init s a).2 v = true
      simp [has_voted, init_hasVoted s a, hmem]
  | vote_si w =>
      show has_voted (vote s w Vote.Si).2 v = true
      simpa [has_voted] using vote_hasVoted_mono s w v Vote.Si hmem
  | vote_no w =>
      show has_voted (vote s w Vote.No).2 v = true
      simpa [has_voted] using vote_hasVoted_mono s w v Vote.No hmem
  | close_voting a =>
      show has_voted (close_voting s a).2 v = true
      simp [has_voted, (close_frame s a).2.2.2, hmem]

/-- The `HasVoted` flag, once present, survives every call sequence. -/
theorem run_hasVoted_mono (ops : List Op) (s : Storage) (v : Address)
    (h : has_voted s v = true) : has_voted (run s ops) v = true := by
  induction ops generalizing s with
  | nil => exact h
  | cons op ops ih => exact ih (step s op).2 (step_hasVoted_mono s op v h)

/-- Once the `Creator` key exists, no call removes it. -/
theorem step_creator_isSome_mono (s : Storage) (op : Op) (h : s.creator.isSome) :
    (step s op).2.creator.isSome := by
  cases op with
  | init a =>
      show (init s a).2.creator.isSome
      rw [init_of_creator_isSome s a h]
      exact h
  | vote_si w =>
      show (vote s w Vote.Si).2.creator.isSome
      rw [(vote_frame s w Vote.Si).1]
      exact h
  | vote_no w =>
      show (vote s w Vote.No).2.creator.isSome
      rw [(vote_frame s w Vote.No).1]
      exact h
  | close_voting a =>
      show (close_voting s a).2.creator.isSome
      rw [(close_frame s a).1]
      exact h

/-- Once the poll is closed (and a creator exists), every later state still
has a creator and a closed poll. -/
theorem step_closed (s : Storage) (op : Op) (hc : s.creator.isSome)
    (ha : s.active = some false) :
    (step s op).2.creator.isSome ∧ (step s op).2.active = some false := by
  refine ⟨step_creator_isSome_mono s op hc, ?_⟩
  cases op with
  | init a =>
      show (init s a).2.active = some false
      rw [init_of_creator_isSome s a hc]
      exact ha
  | vote_si w =>
      show (vote s w Vote.Si).2.active = some false
      rw [(vote_frame s w Vote.Si).2]
      exact ha
  | vote_no w =>
      show (vote s w Vote.No).2.active = some false
      rw [(vote_frame s w Vote.No).2]
      exact ha
  | close_voting a =>
      show (close_voting s a).2.active = some false
      rcases hcr : s.creator with _ | cr
      · rw [close_of_creator_none s a hcr]
        exact ha
      · by_cases hca : cr = a
        · rw [hca] at hcr
          rw [close_of_creator s a hcr]
        · rw [close_of_not_creator s a cr hcr hca]
          exact ha

theorem run_closed (ops : List Op) (s : Storage) (hc : s.creator.isSome)
    (ha : s.active = some false) :
    (run s ops).creator.isSome ∧ (run s ops).active = some false := by
  induction ops generalizing s with
  | nil => exact ⟨hc, ha⟩
  | cons op ops ih =>
      obtain ⟨hc2, ha2⟩ := step_closed s op hc ha
      exact ih (step s op).2 hc2 ha2

theorem run_creator_isSome_mono (ops : List Op) (s : Storage) (h : s.creator.isSome) :
    (run s ops).creator.isSome := by
  induction ops generalizing s with
  | nil => exact h
  | cons op ops ih => exact ih (step s op).2 (step_creator_isSome_mono s op h)

/-- On fresh storage, any call other than `init` commits nothing. -/
theorem step_empty_of_not_init (op : Op) (h : op.isInit = false) :
    (step emptyStorage op).2 = emptyStorage := by
  cases op with
  | init a => simp [Op.isInit] at h
  | vote_si w =>
      show (vote emptyStorage w Vote.Si).2 = emptyStorage
      rw [vote_of_active_none emptyStorage w Vote.Si rfl]
  | vote_no w =>
      show (vote emptyStorage w Vote.No).2 = emptyStorage
      rw [vote_of_active_none emptyStorage w Vote.No rfl]
  | close_voting a =>
      show (close_voting emptyStorage a).2 = emptyStorage
      rw [close_of_creator_none emptyStorage a rfl]

/-- A sequence with no `init` call leaves fresh storage fresh. -/
theorem run_empty_of_no_init (ops : List Op) (h : ∀ op ∈ ops, op.isInit = false) :
    run emptyStorage ops = emptyStorage := by
  induction ops with
  | nil => rfl
  | cons op ops ih =>
      show run (step emptyStorage op).2 ops = emptyStorage
      rw [step_empty_of_not_init op (h op (List.mem_cons_self op ops))]
      exact ih (fun o ho => h o (List.mem_cons_of_mem op ho))

/-- One vote call never lowers either counter. -/
theorem vote_votes_mono (s : Storage) (w : Address) (c : Vote) :
    s.votesSi.getD 0 ≤ (vote s w c).2.votesSi.getD 0 ∧
    s.votesNo.getD 0 ≤ (vote s w c).2.votesNo.getD 0 := by
  rcases ha : s.active with _ | b
  · rw [vote_of_active_none s w c ha]
    exact ⟨Nat.le_refl _, Nat.le_refl _⟩
  · cases b with
    | false =>
        rw [vote_of_active_false s w c ha]
        exact ⟨Nat.le_refl _, Nat.le_refl _⟩
    | true =>
        cases hv : has_voted s w with
        | true =>
            rw [vote_of_has_voted s w c ha hv]
            exact ⟨Nat.le_refl _, Nat.le_refl _⟩
        | false =>
            cases c with
            | Si =>
                rw [vote_si_ok s w ha hv]
                exact ⟨Nat.le_succ _, Nat.le_refl _⟩
            | No =>
                rw [vote_no_ok s w ha hv]
                exact ⟨Nat.le_refl _, Nat.le_succ _⟩

/-!
## The global state invariant
-/

/-- The state invariant every call maintains: an instance without a
`Creator` key is pristine, no identity is recorded twice in the `HasVoted`
family, and the two counters account exactly for the recorded voters. -/
def Inv (s : Storage) : Prop :=
  (s.creator = none → s = emptyStorage) ∧
  s.hasVoted.Nodup ∧
  s.votesSi.getD 0 + s.votesNo.getD 0 = s.hasVoted.length

theorem inv_empty : Inv emptyStorage :=
  ⟨fun _ => rfl, List.nodup_nil, rfl⟩

theorem inv_init (s : Storage) (a : Address) (h : Inv s) : Inv (init s a).2 := by
  obtain ⟨h1, h2, h3⟩ := h
  rcases hc : s.creator with _ | cr
  · rw [init_of_creator_none s a hc]
    have hs := h1 hc
    refine ⟨by simp, h2, ?_⟩
    show 0 + 0 = s.hasVoted.length
    rw [hs]
    rfl
  · rw [init_of_creator_isSome s a (by rw [hc]; rfl)]
    exact ⟨h1, h2, h3⟩

theorem inv_vote (s : Storage) (w : Address) (c : Vote) (h : Inv s) :
    Inv (vote s w c).2 := by
  obtain ⟨h1, h2, h3⟩ := h
  rcases ha : s.active with _ | b
  · rw [vote_of_active_none s w c ha]
    exact ⟨h1, h2, h3⟩
  · cases b with
    | false =>
        rw [vote_of_active_false s w c ha]
        exact ⟨h1, h2, h3⟩
    | true =>
        cases hv : has_voted s w with
        | true =>
            rw [vote_of_has_voted s w c ha hv]
            exact ⟨h1, h2, h3⟩
        | false =>
            have hwmem : w ∉ s.hasVoted := by simpa [has_voted] using hv
            have hcr : s.creator ≠ none := by
              intro hcn
              rw [h1 hcn] at ha
              exact absurd ha (by simp [emptyStorage])
            cases c with
            | Si =>
                rw [vote_si_ok s w ha hv]
                refine ⟨fun hcn => absurd hcn hcr, List.nodup_cons.mpr ⟨hwmem, h2⟩, ?_⟩
                show s.votesSi.getD 0 + 1 + s.votesNo.getD 0 = s.hasVoted.length + 1
                omega
            | No =>
                rw [vote_no_ok s w ha hv]
                refine ⟨fun hcn => absurd hcn hcr, List.nodup_cons.mpr ⟨hwmem, h2⟩, ?_⟩
                show s.votesSi.getD 0 + (s.votesNo.getD 0 + 1) = s.hasVoted.length + 1
                omega

theorem inv_close (s : Storage) (a : Address) (h : Inv s) : Inv (close_voting s a).2 := by
  obtain ⟨h1, h2, h3⟩ := h
  rcases hc : s.creator with _ | cr
  · rw [close_of_creator_none s a hc]
    exact ⟨h1, h2, h3⟩
  · by_cases hca : cr = a
    · have hc2 : s.creator = some a := by rw [hc, hca]
      rw [close_of_creator s a hc2]
      refine ⟨fun hcn => ?_, h2, h3⟩
      have hcn2 : s.creator = none := hcn
      rw [hc] at hcn2
      simp at hcn2
    · rw [close_of_not_creator s a cr hc hca]
      exact ⟨h1, h2, h3⟩

theorem inv_step (s : Storage) (op : Op) (h : Inv s) : Inv (step s op).2 := by
  cases op with
  | init a => exact inv_init s a h
  | vote_si w => exact inv_vote s w Vote.Si h
  | vote_no w => exact inv_vote s w Vote.No h
  | close_voting a => exact inv_close s a h

theorem inv_run (ops : List Op) (s : Storage) (h : Inv s) : Inv (run s ops) := by
  induction ops generalizing s with
  | nil => exact h
  | cons op ops ih => exact ih (step s op).2 (inv_step s op h)

/-- Every reachable state of a deployed instance satisfies the invariant. -/
theorem reachable_inv (s : Storage) (h : Reachable s) : Inv s := by
  obtain ⟨ops, rfl⟩ := h
  exact inv_run ops emptyStorage inv_empty

/-- No call lowers either counter (on an invariant-satisfying state: a
successful re-init, which resets the counters, needs a missing creator,
and then the instance is pristine with both counters at 0). -/
theorem step_votes_mono (s : Storage) (op : Op) (hinv : Inv s) :
    s.votesSi.getD 0 ≤ (step s op).2.votesSi.getD 0 ∧
    s.votesNo.getD 0 ≤ (step s op).2.votesNo.getD 0 := by
  obtain ⟨h1, _, _⟩ := hinv
  cases op with
  | init a =>
      show s.votesSi.getD 0 ≤ (init s a).2.votesSi.getD 0 ∧
           s.votesNo.getD 0 ≤ (init s a).2.votesNo.getD 0
      rcases hcn : s.creator with _ | cr
      · rw [h1 hcn]
        exact ⟨Nat.le_refl 0, Nat.le_refl 0⟩
      · rw [init_of_creator_isSome s a (by rw [hcn]; rfl)]
        exact ⟨Nat.le_refl _, Nat.le_refl _⟩
  | vote_si w => exact vote_votes_mono s w Vote.Si
  | vote_no w => exact vote_votes_mono s w Vote.No
  | close_voting a =>
      show s.votesSi.getD 0 ≤ (close_voting s a).2.votesSi.getD 0 ∧
           s.votesNo.getD 0 ≤ (close_voting s a).2.votesNo.getD 0
      rw [(close_frame s a).2.1, (close_frame s a).2.2.1]
      exact ⟨Nat.le_refl _, Nat.le_refl _⟩

/-- No call sequence lowers either counter. -/
theorem run_votes_mono (ops : List Op) (s : Storage) (hinv : Inv s) :
    s.votesSi.getD 0 ≤ (run s ops).votesSi.getD 0 ∧
    s.votesNo.getD 0 ≤ (run s ops).votesNo.getD 0 := by
  induction ops generalizing s with
  | nil => exact ⟨Nat.le_refl _, Nat.le_refl _⟩
  | cons op ops ih =>
      obtain ⟨hs1, hs2⟩ := step_votes_mono s op hinv
      obtain ⟨hr1, hr2⟩ := ih (step s op).2 (inv_step s op hinv)
      exact ⟨Nat.le_trans hs1 hr1, Nat.le_trans hs2 hr2⟩

end SimpleVoting

namespace SimpleVoting

/-- C1 fails as stated: after identity 1 has voted successfully and the
creator has closed the poll, a repeat `vote_si(1)` returns
`VotingNotActive` — the active check precedes the already-voted check —
not `AlreadyVoted` as the claim requires of every subsequent vote by the
same identity. -/
theorem C1_counterexample :
    (vote_si (run emptyStorage [Op.init 0]) 1).1 = Except.ok () ∧
    has_voted (run emptyStorage [Op.init 0, Op.vote_si 1, Op.close_voting 0]) 1 = true ∧
    vote_si (run emptyStorage [Op.init 0, Op.vote_si 1, Op.close_voting 0]) 1 =
      (Except.error Error.VotingNotActive,
        run emptyStorage [Op.init 0, Op.vote_si 1, Op.close_voting 0]) ∧
    Error.VotingNotActive ≠ Error.AlreadyVoted :=
  ⟨rfl, rfl, rfl, by decide⟩

/-- C1 (amended): for every identity `v`, at most one call among
`vote_si(v)`/`vote_no(v)` succeeds — a success requires the `HasVoted(v)`
flag to be absent and writes it, the flag survives every later call, and
while it is present every vote call by `v` fails with no state change,
with `AlreadyVoted` whenever the poll is still active (`VotingNotActive`
once it is closed, `NotInitialized` were the `Active` key absent); and
`has_voted(v)` is true after the first successful vote and in every state
reachable thereafter. -/
theorem C1_at_most_one_vote (s t : Storage) (v : Address) (c c2 : Vote) (ops : List Op)
    (hsucc : (vote t v c2).1 = Except.ok ())
    (h : has_voted s v = true) :
    has_voted t v = false ∧
    has_voted (vote t v c2).2 v = true ∧
    has_voted (run s ops) v = true ∧
    (vote s v c).2 = s ∧
    (∃ e, (vote s v c).1 = Except.error e) ∧
    (s.active = some true → vote s v c = (Except.error Error.AlreadyVoted, s)) ∧
    (s.active = some false → vote s v c = (Except.error Error.VotingNotActive, s)) := by
  obtain ⟨hat, hfv⟩ := vote_ok_inv t v c2 hsucc
  have hflag : has_voted (vote t v c2).2 v = true := by
    cases c2 with
    | Si =>
        rw [vote_si_ok t v hat hfv]
        simp [has_voted]
    | No =>
        rw [vote_no_ok t v hat hfv]
        simp [has_voted]
  refine ⟨hfv, hflag, run_hasVoted_mono ops s v h, ?_, ?_, ?_, ?_⟩
  · rcases ha : s.active with _ | b
    · rw [vote_of_active_none s v c ha]
    · cases b with
      | false => rw [vote_of_active_false s v c ha]
      | true => rw [vote_of_has_voted s v c ha h]
  · rcases ha : s.active with _ | b
    · exact ⟨Error.NotInitialized, by rw [vote_of_active_none s v c ha]⟩
    · cases b with
      | false => exact ⟨Error.VotingNotActive, by rw [vote_of_active_false s v c ha]⟩
      | true => exact ⟨Error.AlreadyVoted, by rw [vote_of_has_voted s v c ha h]⟩
  · intro ha
    rw [vote_of_has_voted s v c ha h]
  · intro ha
    rw [vote_of_active_false s v c ha]

/-- C1 witness: identity 1 votes yes successfully on a freshly opened poll;
afterwards a `vote_no(1)` fails with `AlreadyVoted` and the flag survives a
close. -/
theorem C1_at_most_one_vote_witness :
    ((vote (run emptyStorage [Op.init 0]) 1 Vote.Si).1 = Except.ok () ∧
     has_voted (run emptyStorage [Op.init 0, Op.vote_si 1]) 1 = true) ∧
    (has_voted (run emptyStorage [Op.init 0]) 1 = false ∧
     has_voted (vote (run emptyStorage [Op.init 0]) 1 Vote.Si).2 1 = true ∧
     has_voted (run (run emptyStorage [Op.init 0, Op.vote_si 1]) [Op.close_voting 0]) 1 = true ∧
     (vote (run emptyStorage [Op.init 0, Op.vote_si 1]) 1 Vote.No).2 =
       run emptyStorage [Op.init 0, Op.vote_si 1] ∧
     (∃ e, (vote (run emptyStorage [Op.init 0, Op.vote_si 1]) 1 Vote.No).1 = Except.error e) ∧
     ((run emptyStorage [Op.init 0, Op.vote_si 1]).active = some true →
       vote (run emptyStorage [Op.init 0, Op.vote_si 1]) 1 Vote.No =
         (Except.error Error.AlreadyVoted, run emptyStorage [Op.init 0, Op.vote_si 1])) ∧
     ((run emptyStorage [Op.init 0, Op.vote_si 1]).active = some false →
       vote (run emptyStorage [Op.init 0, Op.vote_si 1]) 1 Vote.No =
         (Except.error Error.VotingNotActive, run emptyStorage [Op.init 0, Op.vote_si 1]))) :=
  ⟨⟨rfl, rfl⟩,
   C1_at_most_one_vote (run emptyStorage [Op.init 0, Op.vote_si 1])
     (run emptyStorage [Op.init 0]) 1 Vote.No Vote.Si [Op.close_voting 0] rfl rfl⟩

/-- C2: once a creator is stored, `close_voting` succeeds exactly for that
creator; any other caller receives `NotCreator` with the storage (its
`Active` flag included) untouched, and the creator's close always succeeds
— poll already closed or not — re-writing `Active := false`. -/
theorem C2_close_only_creator (s : Storage) (caller cr : Address)
    (h : s.creator = some cr) :
    ((close_voting s caller).1 = Except.ok () ↔ caller = cr) ∧
    (caller ≠ cr → close_voting s caller = (Except.error Error.NotCreator, s)) ∧
    (caller = cr → close_voting s caller = (Except.ok (), { s with active := some false })) := by
  have heq : ∀ hca : caller = cr,
      close_voting s caller = (Except.ok (), { s with active := some false }) := by
    intro hca
    have h2 : s.creator = some caller := by rw [h, hca]
    exact close_of_creator s caller h2
  have hne : ∀ hca : caller ≠ cr,
      close_voting s caller = (Except.error Error.NotCreator, s) := by
    intro hca
    exact close_of_not_creator s caller cr h (fun he => hca he.symm)
  refine ⟨⟨?_, ?_⟩, hne, heq⟩
  · intro hok
    by_contra hca
    rw [hne hca] at hok
    exact absurd hok (by simp)
  · intro hca
    rw [heq hca]

/-- C2 witness: on a freshly initialized poll created by identity 0, the
call `close_voting(1)` is characterized by the theorem; in particular it
returns `NotCreator` and changes nothing. -/
theorem C2_close_only_creator_witness :
    (run emptyStorage [Op.init 0]).creator = some 0 ∧
    (((close_voting (run emptyStorage [Op.init 0]) 1).1 = Except.ok () ↔ (1 : Address) = 0) ∧
     ((1 : Address) ≠ 0 →
       close_voting (run emptyStorage [Op.init 0]) 1 =
         (Except.error Error.NotCreator, run emptyStorage [Op.init 0])) ∧
     ((1 : Address) = 0 →
       close_voting (run emptyStorage [Op.init 0]) 1 =
         (Except.ok (), { run emptyStorage [Op.init 0] with active := some false }))) :=
  ⟨rfl, C2_close_only_creator (run emptyStorage [Op.init 0]) 1 0 rfl⟩

/-- C3: on fresh storage, `vote_si`, `vote_no` and `close_voting` all
return `NotInitialized` and commit nothing, so any sequence of calls with
no `init` leaves the storage exactly fresh. -/
theorem C3_uninitialized_rejects (ops : List Op) (v cr : Address) (c : Vote)
    (h : ∀ op ∈ ops, op.isInit = false) :
    run emptyStorage ops = emptyStorage ∧
    vote emptyStorage v c = (Except.error Error.NotInitialized, emptyStorage) ∧
    vote_si emptyStorage v = (Except.error Error.NotInitialized, emptyStorage) ∧
    vote_no emptyStorage v = (Except.error Error.NotInitialized, emptyStorage) ∧
    close_voting emptyStorage cr = (Except.error Error.NotInitialized, emptyStorage) :=
  ⟨run_empty_of_no_init ops h, rfl, rfl, rfl, rfl⟩

/-- C3 witness: a vote and a close attempted on fresh storage both return
`NotInitialized` and leave it fresh. -/
theorem C3_uninitialized_rejects_witness :
    (∀ op ∈ [Op.vote_si 5, Op.close_voting 2], op.isInit = false) ∧
    (run emptyStorage [Op.vote_si 5, Op.close_voting 2] = emptyStorage ∧
     vote emptyStorage 7 Vote.Si = (Except.error Error.NotInitialized, emptyStorage) ∧
     vote_si emptyStorage 7 = (Except.error Error.NotInitialized, emptyStorage) ∧
     vote_no emptyStorage 7 = (Except.error Error.NotInitialized, emptyStorage) ∧
     close_voting emptyStorage 8 = (Except.error Error.NotInitialized, emptyStorage)) :=
  ⟨by decide, C3_uninitialized_rejects [Op.vote_si 5, Op.close_voting 2] 7 8 Vote.Si (by decide)⟩

/-- C6: from fresh storage, `init(C); vote_si(A); vote_si(A); vote_no(B);
close_voting(D); close_voting(C)` (with C, A, B, D the distinct identities
0, 1, 2, 3) succeeds at every step except the repeated `vote_si(A)`, which
returns `AlreadyVoted`, and `close_voting(D)`, which returns `NotCreator`;
the final `get_results()` returns exactly `(1, 1, false)`. -/
theorem C6_concrete_scenario :
    (init emptyStorage 0).1 = Except.ok () ∧
    (vote_si (run emptyStorage [Op.init 0]) 1).1 = Except.ok () ∧
    (vote_si (run emptyStorage [Op.init 0, Op.vote_si 1]) 1).1 =
      Except.error Error.AlreadyVoted ∧
    (vote_no (run emptyStorage [Op.init 0, Op.vote_si 1, Op.vote_si 1]) 2).1 =
      Except.ok () ∧
    (close_voting (run emptyStorage
      [Op.init 0, Op.vote_si 1, Op.vote_si 1, Op.vote_no 2]) 3).1 =
      Except.error Error.NotCreator ∧
    (close_voting (run emptyStorage
      [Op.init 0, Op.vote_si 1, Op.vote_si 1, Op.vote_no 2, Op.close_voting 3]) 0).1 =
      Except.ok () ∧
    get_results (run emptyStorage
      [Op.init 0, Op.vote_si 1, Op.vote_si 1, Op.vote_no 2, Op.close_voting 3,
       Op.close_voting 0]) = (1, 1, false) :=
  ⟨rfl, rfl, rfl, rfl, rfl, rfl, rfl⟩

/-- C4: after a successful `close_voting`, in every state reached by any
further sequence of calls the poll is still closed and every `vote_si` or
`vote_no` call returns `VotingNotActive` committing the storage — both
counters included — unchanged. -/
theorem C4_closed_blocks_votes (s : Storage) (cr v : Address) (c : Vote) (ops : List Op)
    (h : (close_voting s cr).1 = Except.ok ()) :
    (run (close_voting s cr).2 ops).active = some false ∧
    vote (run (close_voting s cr).2 ops) v c =
      (Except.error Error.VotingNotActive, run (close_voting s cr).2 ops) ∧
    vote_si (run (close_voting s cr).2 ops) v =
      (Except.error Error.VotingNotActive, run (close_voting s cr).2 ops) ∧
    vote_no (run (close_voting s cr).2 ops) v =
      (Except.error Error.VotingNotActive, run (close_voting s cr).2 ops) := by
  have hcr := close_ok_inv s cr h
  have h2 : close_voting s cr = (Except.ok (), { s with active := some false }) :=
    close_of_creator s cr hcr
  have hc2 : (close_voting s cr).2.creator.isSome := by
    rw [h2]
    show s.creator.isSome
    rw [hcr]
    rfl
  have ha2 : (close_voting s cr).2.active = some false := by rw [h2]
  obtain ⟨hc3, ha3⟩ := run_closed ops (close_voting s cr).2 hc2 ha2
  exact ⟨ha3, vote_of_active_false _ v c ha3, vote_of_active_false _ v Vote.Si ha3,
    vote_of_active_false _ v Vote.No ha3⟩

/-- C4 witness: creator 0 opens a poll and closes it; a later `vote_si(1)`
attempt, then fresh vote attempts by identity 2, all return
`VotingNotActive` with nothing committed. -/
theorem C4_closed_blocks_votes_witness :
    (close_voting (run emptyStorage [Op.init 0]) 0).1 = Except.ok () ∧
    ((run (close_voting (run emptyStorage [Op.init 0]) 0).2 [Op.vote_si 1]).active = some false ∧
     vote (run (close_voting (run emptyStorage [Op.init 0]) 0).2 [Op.vote_si 1]) 2 Vote.No =
       (Except.error Error.VotingNotActive,
         run (close_voting (run emptyStorage [Op.init 0]) 0).2 [Op.vote_si 1]) ∧
     vote_si (run (close_voting (run emptyStorage [Op.init 0]) 0).2 [Op.vote_si 1]) 2 =
       (Except.error Error.VotingNotActive,
         run (close_voting (run emptyStorage [Op.init 0]) 0).2 [Op.vote_si 1]) ∧
     vote_no (run (close_voting (run emptyStorage [Op.init 0]) 0).2 [Op.vote_si 1]) 2 =
       (Except.error Error.VotingNotActive,
         run (close_voting (run emptyStorage [Op.init 0]) 0).2 [Op.vote_si 1])) :=
  ⟨rfl, C4_closed_blocks_votes (run emptyStorage [Op.init 0]) 0 2 Vote.No [Op.vote_si 1] rfl⟩

/-- C5: on reachable states, a call makes the `Active` flag `true` only if
it was already `true` or the call is an `init`; and once the flag is
`false` (poll closed) it stays `false` through every further call
sequence — `Closed` is terminal and `false` never transitions back to
`true`. -/
theorem C5_active_transitions (s : Storage) (op : Op) (ops : List Op) (h : Reachable s) :
    ((step s op).2.active = some true → s.active = some true ∨ ∃ a, op = Op.init a) ∧
    (s.active = some false → (run s ops).active = some false) := by
  obtain ⟨h1, h2, h3⟩ := reachable_inv s h
  constructor
  · intro hstep
    cases op with
    | init a => exact Or.inr ⟨a, rfl⟩
    | vote_si w =>
        simp only [step, vote_si] at hstep
        rw [(vote_frame s w Vote.Si).2] at hstep
        exact Or.inl hstep
    | vote_no w =>
        simp only [step, vote_no] at hstep
        rw [(vote_frame s w Vote.No).2] at hstep
        exact Or.inl hstep
    | close_voting a =>
        simp only [step] at hstep
        rcases hc : s.creator with _ | cr
        · rw [close_of_creator_none s a hc] at hstep
          exact Or.inl hstep
        · by_cases hca : cr = a
          · have hc2 : s.creator = some a := by rw [hc, hca]
            rw [close_of_creator s a hc2] at hstep
            simp at hstep
          · rw [close_of_not_creator s a cr hc hca] at hstep
            exact Or.inl hstep
  · intro ha
    have hcr : s.creator.isSome := by
      rcases hcn : s.creator with _ | cr
      · rw [h1 hcn] at ha
        exact absurd ha (by simp [emptyStorage])
      · rfl
    exact (run_closed ops s hcr ha).2

/-- C5 witness: on the closed poll reached by `init(0); close_voting(0)`,
an attempted re-init by 1 does not make the flag true, and the flag stays
`false` across a further `init(1); vote_si(2)` suffix. -/
theorem C5_active_transitions_witness :
    ((step (run emptyStorage [Op.init 0, Op.close_voting 0]) (Op.init 1)).2.active = some true →
      (run emptyStorage [Op.init 0, Op.close_voting 0]).active = some true ∨
        ∃ a, Op.init 1 = Op.init a) ∧
    ((run emptyStorage [Op.init 0, Op.close_voting 0]).active = some false →
      (run (run emptyStorage [Op.init 0, Op.close_voting 0]) [Op.init 1, Op.vote_si 2]).active =
        some false) :=
  C5_active_transitions (run emptyStorage [Op.init 0, Op.close_voting 0]) (Op.init 1)
    [Op.init 1, Op.vote_si 2] ⟨[Op.init 0, Op.close_voting 0], rfl⟩

/-- C7: after a successful `init`, whatever further calls run, another
`init` returns `AlreadyInitialized` and commits the storage — all four
fields written by the first `init`, in whatever values they hold by then —
unchanged. -/
theorem C7_reinit_rejected (s : Storage) (a b : Address) (ops : List Op)
    (h : (init s a).1 = Except.ok ()) :
    init (run (init s a).2 ops) b =
      (Except.error Error.AlreadyInitialized, run (init s a).2 ops) := by
  have hc : (init s a).2.creator.isSome := by
    rcases hcn : s.creator with _ | cr
    · rw [init_of_creator_none s a hcn]
      rfl
    · rw [init_of_creator_isSome s a (by rw [hcn]; rfl)] at h
      exact absurd h (by simp)
  exact init_of_creator_isSome _ b (run_creator_isSome_mono ops (init s a).2 hc)

/-- C7 witness: identity 0 initializes fresh storage; after identity 1
votes, a second `init` by identity 3 returns `AlreadyInitialized` with
nothing committed. -/
theorem C7_reinit_rejected_witness :
    (init emptyStorage 0).1 = Except.ok () ∧
    init (run (init emptyStorage 0).2 [Op.vote_si 1]) 3 =
      (Except.error Error.AlreadyInitialized, run (init emptyStorage 0).2 [Op.vote_si 1]) :=
  ⟨rfl, C7_reinit_rejected emptyStorage 0 3 [Op.vote_si 1] rfl⟩

/-- C8: from any reachable state, no single call and no call sequence
lowers either counter, and a successful vote bumps exactly the counter
matching its choice by exactly 1, leaving the other counter's entry
untouched. -/
theorem C8_counters_monotone (s : Storage) (op : Op) (ops : List Op) (v : Address)
    (c : Vote) (h : Reachable s) :
    s.votesSi.getD 0 ≤ (step s op).2.votesSi.getD 0 ∧
    s.votesNo.getD 0 ≤ (step s op).2.votesNo.getD 0 ∧
    s.votesSi.getD 0 ≤ (run s ops).votesSi.getD 0 ∧
    s.votesNo.getD 0 ≤ (run s ops).votesNo.getD 0 ∧
    ((vote s v c).1 = Except.ok () → c = Vote.Si →
      (vote s v c).2.votesSi.getD 0 = s.votesSi.getD 0 + 1 ∧
      (vote s v c).2.votesNo = s.votesNo) ∧
    ((vote s v c).1 = Except.ok () → c = Vote.No →
      (vote s v c).2.votesNo.getD 0 = s.votesNo.getD 0 + 1 ∧
      (vote s v c).2.votesSi = s.votesSi) := by
  have hinv := reachable_inv s h
  obtain ⟨hm1, hm2⟩ := step_votes_mono s op hinv
  obtain ⟨hr1, hr2⟩ := run_votes_mono ops s hinv
  refine ⟨hm1, hm2, hr1, hr2, ?_, ?_⟩
  · intro hok hc
    subst hc
    obtain ⟨ha, hv⟩ := vote_ok_inv s v Vote.Si hok
    rw [vote_si_ok s v ha hv]
    exact ⟨rfl, rfl⟩
  · intro hok hc
    subst hc
    obtain ⟨ha, hv⟩ := vote_ok_inv s v Vote.No hok
    rw [vote_no_ok s v ha hv]
    exact ⟨rfl, rfl⟩

/-- C8 witness: on the poll reached by `init(0); vote_si(1)`, a
`close_voting(0)` call and a `[vote_no(2), close_voting(0)]` suffix never
lower the counters, and the successful `vote_no(2)` bumps exactly the no
counter from 0 to 1. -/
theorem C8_counters_monotone_witness :
    ((run emptyStorage [Op.init 0, Op.vote_si 1]).votesSi.getD 0 ≤
      (step (run emptyStorage [Op.init 0, Op.vote_si 1]) (Op.close_voting 0)).2.votesSi.getD 0 ∧
     (run emptyStorage [Op.init 0, Op.vote_si 1]).votesNo.getD 0 ≤
      (step (run emptyStorage [Op.init 0, Op.vote_si 1]) (Op.close_voting 0)).2.votesNo.getD 0 ∧
     (run emptyStorage [Op.init 0, Op.vote_si 1]).votesSi.getD 0 ≤
      (run (run emptyStorage [Op.init 0, Op.vote_si 1])
        [Op.vote_no 2, Op.close_voting 0]).votesSi.getD 0 ∧
     (run emptyStorage [Op.init 0, Op.vote_si 1]).votesNo.getD 0 ≤
      (run (run emptyStorage [Op.init 0, Op.vote_si 1])
        [Op.vote_no 2, Op.close_voting 0]).votesNo.getD 0 ∧
     ((vote (run emptyStorage [Op.init 0, Op.vote_si 1]) 2 Vote.No).1 = Except.ok () →
       Vote.No = Vote.Si →
       (vote (run emptyStorage [Op.init 0, Op.vote_si 1]) 2 Vote.No).2.votesSi.getD 0 =
         (run emptyStorage [Op.init 0, Op.vote_si 1]).votesSi.getD 0 + 1 ∧
       (vote (run emptyStorage [Op.init 0, Op.vote_si 1]) 2 Vote.No).2.votesNo =
         (run emptyStorage [Op.init 0, Op.vote_si 1]).votesNo) ∧
     ((vote (run emptyStorage [Op.init 0, Op.vote_si 1]) 2 Vote.No).1 = Except.ok () →
       Vote.No = Vote.No →
       (vote (run emptyStorage [Op.init 0, Op.vote_si 1]) 2 Vote.No).2.votesNo.getD 0 =
         (run emptyStorage [Op.init 0, Op.vote_si 1]).votesNo.getD 0 + 1 ∧
       (vote (run emptyStorage [Op.init 0, Op.vote_si 1]) 2 Vote.No).2.votesSi =
         (run emptyStorage [Op.init 0, Op.vote_si 1]).votesSi)) :=
  C8_counters_monotone (run emptyStorage [Op.init 0, Op.vote_si 1]) (Op.close_voting 0)
    [Op.vote_no 2, Op.close_voting 0] 2 Vote.No ⟨[Op.init 0, Op.vote_si 1], rfl⟩

/-- C9: the two read queries are total functions of the storage:
`get_results` returns the yes counter, the no counter and the active flag
with defaults 0, 0 and `false` for absent keys, and `has_voted(u)` returns
exactly whether the `HasVoted(u)` key exists; on fresh storage they give
`(0, 0, false)` and `false`. -/
theorem C9_reads_total (s : Storage) (u : Address) :
    get_results s = (s.votesSi.getD 0, s.votesNo.getD 0, s.active.getD false) ∧
    (has_voted s u = true ↔ u ∈ s.hasVoted) ∧
    get_results emptyStorage = (0, 0, false) ∧
    has_voted emptyStorage u = false := by
  refine ⟨rfl, ?_, rfl, ?_⟩
  · simp [has_voted]
  · simp [has_voted, emptyStorage]

/-- C10: in every reachable state, the yes counter plus the no counter
(each read as 0 when absent) equals the number of distinct identities
whose `HasVoted` key exists. -/
theorem C10_votes_account_for_voters (s : Storage) (h : Reachable s) :
    s.votesSi.getD 0 + s.votesNo.getD 0 = s.hasVoted.toFinset.card := by
  obtain ⟨h1, h2, h3⟩ := reachable_inv s h
  rw [h3]
  exact (List.toFinset_card_of_nodup h2).symm

/-- C10 witness: after `init(0); vote_si(1); vote_no(2); close_voting(0)`
the counters sum to 2, the number of distinct recorded voters. -/
theorem C10_votes_account_for_voters_witness :
    (run emptyStorage [Op.init 0, Op.vote_si 1, Op.vote_no 2, Op.close_voting 0]).votesSi.getD 0 +
      (run emptyStorage [Op.init 0, Op.vote_si 1, Op.vote_no 2, Op.close_voting 0]).votesNo.getD 0 =
    (run emptyStorage
      [Op.init 0, Op.vote_si 1, Op.vote_no 2, Op.close_voting 0]).hasVoted.toFinset.card :=
  C10_votes_account_for_voters
    (run emptyStorage [Op.init 0, Op.vote_si 1, Op.vote_no 2, Op.close_voting 0])
    ⟨[Op.init 0, Op.vote_si 1, Op.vote_no 2, Op.close_voting 0], rfl⟩

end SimpleVoting
